import Mathlib

/-!
# ISO-8859-3 character classification (src/enc/iso_8859_3.c)

A shallow embedding of the classification table of the ISO-8859-3 encoding and
of its four accessors, followed by the properties checked against them.

Conventions of the embedding:
* a C `char` value is an `Int` (`-128..127` where `char` is signed, `0..255`
  where it is unsigned); the initialisation `const unsigned char v = *c`
  converts it modulo 256;
* a `const char *` is the list of the chars readable from the pointer on, the
  pointed-to char being the head; dereferencing an empty list has no result;
* `size_t` results are `Nat`, `bool` results are `Bool`;
* indexing the table is the checked lookup `xs[i]?`, so an access outside the
  256 entries would show up as `none`.
-/

namespace Yarp

set_option maxRecDepth 100000

/-! ## Data model -/

/-- Modelled from the spec: the header `yarp/enc/yp_encoding.h` that defines the
three flag constants is absent. The spec gives digits "ALPHANUMERIC only"
(table value 2), "flag set 3 = alphabetic+alphanumeric" and "flag set 7 = all
three", which fixes the alphabetic flag to the bit of value 1. -/
def YP_ENCODING_ALPHABETIC_BIT : Nat := 1

/-- Modelled from the spec: the header `yarp/enc/yp_encoding.h` is absent. Digits
carry "ALPHANUMERIC only" and their table value is 2, so the alphanumeric flag
is the bit of value 2. -/
def YP_ENCODING_ALPHANUMERIC_BIT : Nat := 2

/-- Modelled from the spec: the header `yarp/enc/yp_encoding.h` is absent. "Flag
set 7 = all three" with alphabetic = 1 and alphanumeric = 2 leaves the bit of
value 4 for the uppercase flag. -/
def YP_ENCODING_UPPERCASE_BIT : Nat := 4

/-- The table `yp_encoding_iso_8859_3_table[256]`, entry by entry as in the
source (sixteen rows of sixteen). -/
def yp_encoding_iso_8859_3_table : List Nat := [
--0  1  2  3  4  5  6  7  8  9  A  B  C  D  E  F
  0, 0, 0, 0, 0, 0, 0, 0, 0, 0, 0, 0, 0, 0, 0, 0, -- 0x
  0, 0, 0, 0, 0, 0, 0, 0, 0, 0, 0, 0, 0, 0, 0, 0, -- 1x
  0, 0, 0, 0, 0, 0, 0, 0, 0, 0, 0, 0, 0, 0, 0, 0, -- 2x
  2, 2, 2, 2, 2, 2, 2, 2, 2, 2, 0, 0, 0, 0, 0, 0, -- 3x
  0, 7, 7, 7, 7, 7, 7, 7, 7, 7, 7, 7, 7, 7, 7, 7, -- 4x
  7, 7, 7, 7, 7, 7, 7, 7, 7, 7, 7, 0, 0, 0, 0, 0, -- 5x
  0, 3, 3, 3, 3, 3, 3, 3, 3, 3, 3, 3, 3, 3, 3, 3, -- 6x
  3, 3, 3, 3, 3, 3, 3, 3, 3, 3, 3, 0, 0, 0, 0, 0, -- 7x
  0, 0, 0, 0, 0, 0, 0, 0, 0, 0, 0, 0, 0, 0, 0, 0, -- 8x
  0, 0, 0, 0, 0, 0, 0, 0, 0, 0, 0, 0, 0, 0, 0, 0, -- 9x
  0, 7, 0, 0, 0, 0, 7, 0, 0, 7, 7, 7, 7, 0, 0, 7, -- Ax
  0, 3, 0, 0, 0, 3, 3, 0, 0, 3, 3, 3, 3, 0, 0, 3, -- Bx
  7, 7, 7, 0, 7, 7, 7, 7, 7, 7, 7, 7, 7, 7, 7, 7, -- Cx
  0, 7, 7, 7, 7, 7, 7, 0, 7, 7, 7, 7, 7, 7, 7, 3, -- Dx
  3, 3, 3, 0, 3, 3, 3, 3, 3, 3, 3, 3, 3, 3, 3, 3, -- Ex
  0, 3, 3, 3, 3, 3, 3, 0, 3, 3, 3, 3, 3, 3, 3, 0  -- Fx
]

/-- The conversion performed by `const unsigned char v = *c`: a char value is
reduced modulo 256 into `0..255`. -/
def to_unsigned_char (c : Int) : Nat := (c % 256).toNat

/-- Dereference `*c` of a `const char *`: the first readable char, if any. -/
def deref (c : List Int) : Option Int := c.head?

/-! ## Operations -/

/-- Embedding of `yp_encoding_iso_8859_3_char_width`: `return 1;` without
reading through the pointer. -/
def yp_encoding_iso_8859_3_char_width (_c : List Int) : Nat := 1

/-- Embedding of `yp_encoding_iso_8859_3_alpha_char`:
`v = *c; return (table[v] & YP_ENCODING_ALPHABETIC_BIT) ? 1 : 0;`. -/
def yp_encoding_iso_8859_3_alpha_char (c : List Int) : Option Nat := do
  let x ← deref c
  let v := to_unsigned_char x
  let e ← yp_encoding_iso_8859_3_table[v]?
  pure (if e &&& YP_ENCODING_ALPHABETIC_BIT ≠ 0 then 1 else 0)

/-- Embedding of `yp_encoding_iso_8859_3_alnum_char`:
`v = *c; return (table[v] & YP_ENCODING_ALPHANUMERIC_BIT) ? 1 : 0;`. -/
def yp_encoding_iso_8859_3_alnum_char (c : List Int) : Option Nat := do
  let x ← deref c
  let v := to_unsigned_char x
  let e ← yp_encoding_iso_8859_3_table[v]?
  pure (if e &&& YP_ENCODING_ALPHANUMERIC_BIT ≠ 0 then 1 else 0)

/-- Embedding of `yp_encoding_iso_8859_3_isupper_char`:
`v = *c; return (table[v] & YP_ENCODING_UPPERCASE_BIT) ? true : false;`. -/
def yp_encoding_iso_8859_3_isupper_char (c : List Int) : Option Bool := do
  let x ← deref c
  let v := to_unsigned_char x
  let e ← yp_encoding_iso_8859_3_table[v]?
  pure (if e &&& YP_ENCODING_UPPERCASE_BIT ≠ 0 then true else false)

/-! ## Byte-level views used by the proofs

Each accessor, applied to a pointer whose first char is `x`, depends on `x`
only; the three functions below are the accessors on a single char. -/

/-- The alphabetic test on one char value. -/
def alphaOf (x : Int) : Option Nat :=
  yp_encoding_iso_8859_3_alpha_char [x]

/-- The alphanumeric test on one char value. -/
def alnumOf (x : Int) : Option Nat :=
  yp_encoding_iso_8859_3_alnum_char [x]

/-- The uppercase test on one char value. -/
def upperOf (x : Int) : Option Bool :=
  yp_encoding_iso_8859_3_isupper_char [x]

/-! ## The ISO-8859-3 chart, high half

The two predicates below are the chart side of the comparison with the table:
they list the letter positions of the ISO-8859-3 chart and are not read off the
source. -/

/-- Chart positions of the uppercase letters in `0x80..0xFF`. -/
def chart_high_uppercase (b : Nat) : Prop :=
  b = 0xA1 ∨ b = 0xA6 ∨ (0xA9 ≤ b ∧ b ≤ 0xAC) ∨ b = 0xAF ∨
  (0xC0 ≤ b ∧ b ≤ 0xC2) ∨ (0xC4 ≤ b ∧ b ≤ 0xCF) ∨
  (0xD1 ≤ b ∧ b ≤ 0xD6) ∨ (0xD8 ≤ b ∧ b ≤ 0xDE)

/-- Chart positions of the letters without the uppercase property in
`0x80..0xFF`. -/
def chart_high_lowercase (b : Nat) : Prop :=
  b = 0xB1 ∨ b = 0xB5 ∨ b = 0xB6 ∨ (0xB9 ≤ b ∧ b ≤ 0xBC) ∨ b = 0xBF ∨
  (0xDF ≤ b ∧ b ≤ 0xE2) ∨ (0xE4 ≤ b ∧ b ≤ 0xEF) ∨
  (0xF1 ≤ b ∧ b ≤ 0xF6) ∨ (0xF8 ≤ b ∧ b ≤ 0xFE)

instance chart_high_uppercase_decidable : DecidablePred chart_high_uppercase := by
  intro b
  unfold chart_high_uppercase
  infer_instance

instance chart_high_lowercase_decidable : DecidablePred chart_high_lowercase := by
  intro b
  unfold chart_high_lowercase
  infer_instance

/-! ## Basic facts -/

theorem table_length : yp_encoding_iso_8859_3_table.length = 256 := by decide

theorem alpha_char_cons (x : Int) (rest : List Int) :
    yp_encoding_iso_8859_3_alpha_char (x :: rest) = alphaOf x := rfl

theorem alnum_char_cons (x : Int) (rest : List Int) :
    yp_encoding_iso_8859_3_alnum_char (x :: rest) = alnumOf x := rfl

theorem isupper_char_cons (x : Int) (rest : List Int) :
    yp_encoding_iso_8859_3_isupper_char (x :: rest) = upperOf x := rfl

/-- A Boolean check that holds on each of `0..255` holds for every byte. -/
theorem forall_byte_of_all (p : Nat → Bool)
    (h : (List.range 256).all p = true) : ∀ b : Nat, b < 256 → p b = true := by
  intro b hb
  exact List.all_eq_true.mp h b (List.mem_range.mpr hb)

/-- Every index below 256 hits an entry of the table. -/
theorem lookup_some (v : Nat) (hv : v < 256) :
    ∃ e, yp_encoding_iso_8859_3_table[v]? = some e := by
  have hlen : v < yp_encoding_iso_8859_3_table.length := by
    rw [table_length]; exact hv
  exact ⟨yp_encoding_iso_8859_3_table[v], List.getElem?_eq_getElem hlen⟩

/-- The converted value is always a byte. -/
theorem to_unsigned_char_lt (c : Int) : to_unsigned_char c < 256 := by
  unfold to_unsigned_char
  omega

/-- On a value already in `0..255` the conversion changes nothing. -/
theorem to_unsigned_char_byte (b : Nat) (hb : b < 256) :
    to_unsigned_char (b : Int) = b := by
  unfold to_unsigned_char
  omega

/-- The conversion only sees the value modulo 256. -/
theorem to_unsigned_char_add (c : Int) : to_unsigned_char (c + 256) = to_unsigned_char c := by
  unfold to_unsigned_char
  omega

/-! ## Implications between the predicates -/

theorem upper_imp_alpha_bytes (b : Nat) (hb : b < 256)
    (hu : upperOf (b : Int) = some true) : alphaOf (b : Int) = some 1 := by
  have h := forall_byte_of_all
    (fun n => decide (upperOf (n : Int) = some true → alphaOf (n : Int) = some 1))
    (by decide) b hb
  exact of_decide_eq_true h hu

theorem alpha_imp_alnum_bytes (b : Nat) (hb : b < 256)
    (ha : alphaOf (b : Int) = some 1) : alnumOf (b : Int) = some 1 := by
  have h := forall_byte_of_all
    (fun n => decide (alphaOf (n : Int) = some 1 → alnumOf (n : Int) = some 1))
    (by decide) b hb
  exact of_decide_eq_true h ha

/-- C1: for every byte value b in 0..255 (whatever follows it in the buffer), if
`yp_encoding_iso_8859_3_isupper_char` returns true on b then
`yp_encoding_iso_8859_3_alpha_char` returns 1 on b. -/
theorem C1_isupper_implies_alpha (b : Nat) (rest : List Int) (hb : b < 256)
    (hu : yp_encoding_iso_8859_3_isupper_char ((b : Int) :: rest) = some true) :
    yp_encoding_iso_8859_3_alpha_char ((b : Int) :: rest) = some 1 := by
  rw [isupper_char_cons] at hu
  rw [alpha_char_cons]
  exact upper_imp_alpha_bytes b hb hu

/-- Witness of C1 at the byte 0xC0 (capital A with grave), followed by one more
byte. -/
theorem C1_isupper_implies_alpha_witness :
    (0xC0 : Nat) < 256 ∧
    yp_encoding_iso_8859_3_isupper_char (((0xC0 : Nat) : Int) :: [0x41]) = some true ∧
    yp_encoding_iso_8859_3_alpha_char (((0xC0 : Nat) : Int) :: [0x41]) = some 1 :=
  ⟨by decide, by decide, C1_isupper_implies_alpha 0xC0 [0x41] (by decide) (by decide)⟩

/-- C2: for every byte value b in 0..255 (whatever follows it in the buffer), if
`yp_encoding_iso_8859_3_alpha_char` returns 1 on b then
`yp_encoding_iso_8859_3_alnum_char` returns 1 on b. -/
theorem C2_alpha_implies_alnum (b : Nat) (rest : List Int) (hb : b < 256)
    (ha : yp_encoding_iso_8859_3_alpha_char ((b : Int) :: rest) = some 1) :
    yp_encoding_iso_8859_3_alnum_char ((b : Int) :: rest) = some 1 := by
  rw [alpha_char_cons] at ha
  rw [alnum_char_cons]
  exact alpha_imp_alnum_bytes b hb ha

/-- Witness of C2 at the byte 0xDF (sharp s), a lowercase letter of the high
half. -/
theorem C2_alpha_implies_alnum_witness :
    (0xDF : Nat) < 256 ∧
    yp_encoding_iso_8859_3_alpha_char (((0xDF : Nat) : Int) :: []) = some 1 ∧
    yp_encoding_iso_8859_3_alnum_char (((0xDF : Nat) : Int) :: []) = some 1 :=
  ⟨by decide, by decide, C2_alpha_implies_alnum 0xDF [] (by decide) (by decide)⟩

/-- C3: `yp_encoding_iso_8859_3_char_width` returns exactly 1 for every byte b and
whatever bytes follow it, and more generally for every pointer content, so the
result does not depend on the byte pointed to. -/
theorem C3_char_width_is_one (b : Int) (rest : List Int) :
    yp_encoding_iso_8859_3_char_width (b :: rest) = 1 ∧
    ∀ c : List Int,
      yp_encoding_iso_8859_3_char_width c = yp_encoding_iso_8859_3_char_width (b :: rest) := by
  refine ⟨rfl, ?_⟩
  intro c
  rfl

/-! ## The ASCII ranges -/

theorem digit_bytes (b : Nat) (h1 : 0x30 ≤ b) (h2 : b ≤ 0x39) :
    alnumOf (b : Int) = some 1 ∧ alphaOf (b : Int) = some 0 ∧
    upperOf (b : Int) = some false := by
  have h := forall_byte_of_all
    (fun n => decide (0x30 ≤ n → n ≤ 0x39 →
      alnumOf (n : Int) = some 1 ∧ alphaOf (n : Int) = some 0 ∧
      upperOf (n : Int) = some false))
    (by decide) b (by omega)
  exact of_decide_eq_true h h1 h2

theorem ascii_upper_bytes (b : Nat) (h1 : 0x41 ≤ b) (h2 : b ≤ 0x5A) :
    alphaOf (b : Int) = some 1 ∧ alnumOf (b : Int) = some 1 ∧
    upperOf (b : Int) = some true := by
  have h := forall_byte_of_all
    (fun n => decide (0x41 ≤ n → n ≤ 0x5A →
      alphaOf (n : Int) = some 1 ∧ alnumOf (n : Int) = some 1 ∧
      upperOf (n : Int) = some true))
    (by decide) b (by omega)
  exact of_decide_eq_true h h1 h2

theorem ascii_lower_bytes (b : Nat) (h1 : 0x61 ≤ b) (h2 : b ≤ 0x7A) :
    alphaOf (b : Int) = some 1 ∧ alnumOf (b : Int) = some 1 ∧
    upperOf (b : Int) = some false := by
  have h := forall_byte_of_all
    (fun n => decide (0x61 ≤ n → n ≤ 0x7A →
      alphaOf (n : Int) = some 1 ∧ alnumOf (n : Int) = some 1 ∧
      upperOf (n : Int) = some false))
    (by decide) b (by omega)
  exact of_decide_eq_true h h1 h2

/-- C4: for every byte b in 0x30..0x39 (the ASCII digits), whatever follows it,
alnum_char returns 1, alpha_char returns 0 and isupper_char returns false. -/
theorem C4_ascii_digits (b : Nat) (rest : List Int) (h1 : 0x30 ≤ b) (h2 : b ≤ 0x39) :
    yp_encoding_iso_8859_3_alnum_char ((b : Int) :: rest) = some 1 ∧
    yp_encoding_iso_8859_3_alpha_char ((b : Int) :: rest) = some 0 ∧
    yp_encoding_iso_8859_3_isupper_char ((b : Int) :: rest) = some false := by
  rw [alnum_char_cons, alpha_char_cons, isupper_char_cons]
  exact digit_bytes b h1 h2

/-- Witness of C4 at the digit 7 (byte 0x37). -/
theorem C4_ascii_digits_witness :
    (0x30 ≤ 0x37 ∧ 0x37 ≤ 0x39) ∧
    yp_encoding_iso_8859_3_alnum_char (((0x37 : Nat) : Int) :: []) = some 1 ∧
    yp_encoding_iso_8859_3_alpha_char (((0x37 : Nat) : Int) :: []) = some 0 ∧
    yp_encoding_iso_8859_3_isupper_char (((0x37 : Nat) : Int) :: []) = some false :=
  ⟨by decide, C4_ascii_digits 0x37 [] (by decide) (by decide)⟩

/-- C5: for every byte u in 0x41..0x5A (ASCII A..Z) alpha_char returns 1,
alnum_char returns 1 and isupper_char returns true; for every byte l in
0x61..0x7A (ASCII a..z) alpha_char returns 1, alnum_char returns 1 and
isupper_char returns false. -/
theorem C5_ascii_letters (u l : Nat) (rest : List Int)
    (hu : 0x41 ≤ u ∧ u ≤ 0x5A) (hl : 0x61 ≤ l ∧ l ≤ 0x7A) :
    (yp_encoding_iso_8859_3_alpha_char ((u : Int) :: rest) = some 1 ∧
     yp_encoding_iso_8859_3_alnum_char ((u : Int) :: rest) = some 1 ∧
     yp_encoding_iso_8859_3_isupper_char ((u : Int) :: rest) = some true) ∧
    (yp_encoding_iso_8859_3_alpha_char ((l : Int) :: rest) = some 1 ∧
     yp_encoding_iso_8859_3_alnum_char ((l : Int) :: rest) = some 1 ∧
     yp_encoding_iso_8859_3_isupper_char ((l : Int) :: rest) = some false) := by
  simp only [alnum_char_cons, alpha_char_cons, isupper_char_cons]
  exact ⟨ascii_upper_bytes u hu.1 hu.2, ascii_lower_bytes l hl.1 hl.2⟩

/-- Witness of C5 at the two letters the spec names, A (0x41) and a (0x61). -/
theorem C5_ascii_letters_witness :
    ((0x41 ≤ 0x41 ∧ 0x41 ≤ 0x5A) ∧ (0x61 ≤ 0x61 ∧ 0x61 ≤ 0x7A)) ∧
    (yp_encoding_iso_8859_3_alpha_char (((0x41 : Nat) : Int) :: []) = some 1 ∧
     yp_encoding_iso_8859_3_alnum_char (((0x41 : Nat) : Int) :: []) = some 1 ∧
     yp_encoding_iso_8859_3_isupper_char (((0x41 : Nat) : Int) :: []) = some true) ∧
    (yp_encoding_iso_8859_3_alpha_char (((0x61 : Nat) : Int) :: []) = some 1 ∧
     yp_encoding_iso_8859_3_alnum_char (((0x61 : Nat) : Int) :: []) = some 1 ∧
     yp_encoding_iso_8859_3_isupper_char (((0x61 : Nat) : Int) :: []) = some false) :=
  ⟨by decide, C5_ascii_letters 0x41 0x61 [] (by decide) (by decide)⟩

/-! ## Named positions of the high half -/

/-- C6, as stated, fails: of the five bytes it lists, 0xA6 (capital H with
circumflex) has table entry 7 and is alphabetic, alphanumeric and uppercase, and
0xB1 (small h with stroke) has table entry 3 and is alphabetic and alphanumeric;
so not all five entries are 0. -/
theorem C6_gap_bytes_counterexample :
    (yp_encoding_iso_8859_3_table[0xA6]? = some 7 ∧
     yp_encoding_iso_8859_3_alpha_char [0xA6] = some 1 ∧
     yp_encoding_iso_8859_3_alnum_char [0xA6] = some 1 ∧
     yp_encoding_iso_8859_3_isupper_char [0xA6] = some true) ∧
    (yp_encoding_iso_8859_3_table[0xB1]? = some 3 ∧
     yp_encoding_iso_8859_3_alpha_char [0xB1] = some 1 ∧
     yp_encoding_iso_8859_3_alnum_char [0xB1] = some 1 ∧
     yp_encoding_iso_8859_3_isupper_char [0xB1] = some false) ∧
    ¬ (∀ b ∈ ([0xA5, 0xA6, 0xA8, 0xB1, 0xB4] : List Nat),
        yp_encoding_iso_8859_3_table[b]? = some 0 ∧
        yp_encoding_iso_8859_3_alpha_char [(b : Int)] = some 0 ∧
        yp_encoding_iso_8859_3_alnum_char [(b : Int)] = some 0 ∧
        yp_encoding_iso_8859_3_isupper_char [(b : Int)] = some false) := by
  decide

/-- C6, amended: for each of the bytes 0xA5, 0xA8 and 0xB4 the table entry is 0
and alpha_char returns 0, alnum_char returns 0 and isupper_char returns false;
0xA6 has entry 7 (alpha_char 1, alnum_char 1, isupper_char true) and 0xB1 has
entry 3 (alpha_char 1, alnum_char 1, isupper_char false). -/
theorem C6_gap_bytes_amended (rest : List Int) :
    (∀ b ∈ ([0xA5, 0xA8, 0xB4] : List Nat),
        yp_encoding_iso_8859_3_table[b]? = some 0 ∧
        yp_encoding_iso_8859_3_alpha_char ((b : Int) :: rest) = some 0 ∧
        yp_encoding_iso_8859_3_alnum_char ((b : Int) :: rest) = some 0 ∧
        yp_encoding_iso_8859_3_isupper_char ((b : Int) :: rest) = some false) ∧
    (yp_encoding_iso_8859_3_table[0xA6]? = some 7 ∧
     yp_encoding_iso_8859_3_alpha_char (0xA6 :: rest) = some 1 ∧
     yp_encoding_iso_8859_3_alnum_char (0xA6 :: rest) = some 1 ∧
     yp_encoding_iso_8859_3_isupper_char (0xA6 :: rest) = some true) ∧
    (yp_encoding_iso_8859_3_table[0xB1]? = some 3 ∧
     yp_encoding_iso_8859_3_alpha_char (0xB1 :: rest) = some 1 ∧
     yp_encoding_iso_8859_3_alnum_char (0xB1 :: rest) = some 1 ∧
     yp_encoding_iso_8859_3_isupper_char (0xB1 :: rest) = some false) := by
  simp only [alnum_char_cons, alpha_char_cons, isupper_char_cons]
  decide

/-- C7: for byte 0x00 (NUL) and for byte 0xA5 (unassigned in ISO-8859-3), whatever
follows in the buffer, alpha_char returns 0, alnum_char returns 0 and
isupper_char returns false. -/
theorem C7_nul_and_unassigned (rest : List Int) :
    (yp_encoding_iso_8859_3_alpha_char (0x00 :: rest) = some 0 ∧
     yp_encoding_iso_8859_3_alnum_char (0x00 :: rest) = some 0 ∧
     yp_encoding_iso_8859_3_isupper_char (0x00 :: rest) = some false) ∧
    (yp_encoding_iso_8859_3_alpha_char (0xA5 :: rest) = some 0 ∧
     yp_encoding_iso_8859_3_alnum_char (0xA5 :: rest) = some 0 ∧
     yp_encoding_iso_8859_3_isupper_char (0xA5 :: rest) = some false) := by
  simp only [alnum_char_cons, alpha_char_cons, isupper_char_cons]
  decide

/-! ## Indexing by the unsigned value -/

/-- Each accessor unfolds to one checked lookup at the converted char. -/
theorem alphaOf_eq (x : Int) :
    alphaOf x = (yp_encoding_iso_8859_3_table[to_unsigned_char x]?).bind
      (fun e => some (if e &&& YP_ENCODING_ALPHABETIC_BIT ≠ 0 then 1 else 0)) := rfl

theorem alnumOf_eq (x : Int) :
    alnumOf x = (yp_encoding_iso_8859_3_table[to_unsigned_char x]?).bind
      (fun e => some (if e &&& YP_ENCODING_ALPHANUMERIC_BIT ≠ 0 then 1 else 0)) := rfl

theorem upperOf_eq (x : Int) :
    upperOf x = (yp_encoding_iso_8859_3_table[to_unsigned_char x]?).bind
      (fun e => some (if e &&& YP_ENCODING_UPPERCASE_BIT ≠ 0 then true else false)) := rfl

/-- The value a char is classified as: itself when non-negative, itself plus 256
when negative. -/
theorem to_unsigned_char_signed (c : Int) (hlo : -128 ≤ c) (hhi : c ≤ 255) :
    ((to_unsigned_char c : Nat) : Int) = if c < 0 then c + 256 else c := by
  unfold to_unsigned_char
  split <;> omega

theorem to_unsigned_char_idem (c : Int) :
    to_unsigned_char ((to_unsigned_char c : Nat) : Int) = to_unsigned_char c := by
  unfold to_unsigned_char
  omega

/-- C8: for every value c a char can take (-128..127 when signed, 0..255 when
unsigned) the index used by alpha_char, alnum_char and isupper_char is c
converted to unsigned char, that is c mod 256; it lies in 0..255, the lookup in
the table yields an entry e, the three accessors return the test of their flag
on e (so none of them fails), and a negative c is indexed and classified as the
byte c + 256. -/
theorem C8_index_in_bounds (c : Int) (rest : List Int) (hlo : -128 ≤ c) (hhi : c ≤ 255) :
    ((to_unsigned_char c : Nat) : Int) = c % 256 ∧
    to_unsigned_char c < 256 ∧
    (∃ e, yp_encoding_iso_8859_3_table[to_unsigned_char c]? = some e ∧
      yp_encoding_iso_8859_3_alpha_char (c :: rest)
        = some (if e &&& YP_ENCODING_ALPHABETIC_BIT ≠ 0 then 1 else 0) ∧
      yp_encoding_iso_8859_3_alnum_char (c :: rest)
        = some (if e &&& YP_ENCODING_ALPHANUMERIC_BIT ≠ 0 then 1 else 0) ∧
      yp_encoding_iso_8859_3_isupper_char (c :: rest)
        = some (if e &&& YP_ENCODING_UPPERCASE_BIT ≠ 0 then true else false)) ∧
    ((to_unsigned_char c : Nat) : Int) = (if c < 0 then c + 256 else c) ∧
    yp_encoding_iso_8859_3_alpha_char (c :: rest)
      = yp_encoding_iso_8859_3_alpha_char ((if c < 0 then c + 256 else c) :: rest) ∧
    yp_encoding_iso_8859_3_alnum_char (c :: rest)
      = yp_encoding_iso_8859_3_alnum_char ((if c < 0 then c + 256 else c) :: rest) ∧
    yp_encoding_iso_8859_3_isupper_char (c :: rest)
      = yp_encoding_iso_8859_3_isupper_char ((if c < 0 then c + 256 else c) :: rest) := by
  have hs := to_unsigned_char_signed c hlo hhi
  have hidx : to_unsigned_char (if c < 0 then c + 256 else c) = to_unsigned_char c := by
    rw [← hs]
    exact to_unsigned_char_idem c
  obtain ⟨e, he⟩ := lookup_some _ (to_unsigned_char_lt c)
  simp only [alnum_char_cons, alpha_char_cons, isupper_char_cons]
  refine ⟨?_, to_unsigned_char_lt c, ⟨e, he, ?_, ?_, ?_⟩, hs, ?_, ?_, ?_⟩
  · unfold to_unsigned_char
    omega
  · rw [alphaOf_eq, he]; rfl
  · rw [alnumOf_eq, he]; rfl
  · rw [upperOf_eq, he]; rfl
  · rw [alphaOf_eq, alphaOf_eq, hidx]
  · rw [alnumOf_eq, alnumOf_eq, hidx]
  · rw [upperOf_eq, upperOf_eq, hidx]

/-- Witness of C8 at the signed char -90, the byte 0xA6 read through a signed
char: it is indexed at 166 and classified like the byte 166. -/
theorem C8_index_in_bounds_witness :
    ((-128 : Int) ≤ -90 ∧ (-90 : Int) ≤ 255) ∧
    (((to_unsigned_char (-90) : Nat) : Int) = (-90) % 256 ∧
    to_unsigned_char (-90) < 256 ∧
    (∃ e, yp_encoding_iso_8859_3_table[to_unsigned_char (-90)]? = some e ∧
      yp_encoding_iso_8859_3_alpha_char ((-90) :: [])
        = some (if e &&& YP_ENCODING_ALPHABETIC_BIT ≠ 0 then 1 else 0) ∧
      yp_encoding_iso_8859_3_alnum_char ((-90) :: [])
        = some (if e &&& YP_ENCODING_ALPHANUMERIC_BIT ≠ 0 then 1 else 0) ∧
      yp_encoding_iso_8859_3_isupper_char ((-90) :: [])
        = some (if e &&& YP_ENCODING_UPPERCASE_BIT ≠ 0 then true else false)) ∧
    ((to_unsigned_char (-90) : Nat) : Int) = (if (-90 : Int) < 0 then -90 + 256 else -90) ∧
    yp_encoding_iso_8859_3_alpha_char ((-90) :: [])
      = yp_encoding_iso_8859_3_alpha_char ((if (-90 : Int) < 0 then -90 + 256 else -90) :: []) ∧
    yp_encoding_iso_8859_3_alnum_char ((-90) :: [])
      = yp_encoding_iso_8859_3_alnum_char ((if (-90 : Int) < 0 then -90 + 256 else -90) :: []) ∧
    yp_encoding_iso_8859_3_isupper_char ((-90) :: [])
      = yp_encoding_iso_8859_3_isupper_char
          ((if (-90 : Int) < 0 then -90 + 256 else -90) :: [])) :=
  ⟨by decide, C8_index_in_bounds (-90) [] (by decide) (by decide)⟩

/-! ## The flag tests and the digits -/

theorem flag_tests_bytes (b : Nat) (hb : b < 256) :
    ∃ e ∈ yp_encoding_iso_8859_3_table[b]?,
      alphaOf (b : Int) = some (if e.testBit 0 then 1 else 0) ∧
      alnumOf (b : Int) = some (if e.testBit 1 then 1 else 0) := by
  have h := forall_byte_of_all
    (fun n => decide (∃ e ∈ yp_encoding_iso_8859_3_table[n]?,
      alphaOf (n : Int) = some (if e.testBit 0 then 1 else 0) ∧
      alnumOf (n : Int) = some (if e.testBit 1 then 1 else 0)))
    (by decide) b hb
  exact of_decide_eq_true h

theorem alnum_iff_bytes (b : Nat) (hb : b < 256) :
    (alnumOf (b : Int) = some 1 ↔
      (alphaOf (b : Int) = some 1 ∨ (0x30 ≤ b ∧ b ≤ 0x39))) ∧
    ((alnumOf (b : Int) = some 1 ∧ alphaOf (b : Int) ≠ some 1) ↔
      (0x30 ≤ b ∧ b ≤ 0x39)) := by
  have h := forall_byte_of_all
    (fun n => decide (
      (alnumOf (n : Int) = some 1 ↔
        (alphaOf (n : Int) = some 1 ∨ (0x30 ≤ n ∧ n ≤ 0x39))) ∧
      ((alnumOf (n : Int) = some 1 ∧ alphaOf (n : Int) ≠ some 1) ↔
        (0x30 ≤ n ∧ n ≤ 0x39))))
    (by decide) b hb
  exact of_decide_eq_true h

/-- C9: for every byte b in 0..255, with e the table entry of b, alpha_char
returns 1 if the bit of value 1 (ALPHABETIC) is set in e and 0 otherwise, and
alnum_char returns 1 if the bit of value 2 (ALPHANUMERIC) is set in e and 0
otherwise; both results are 0 or 1, never the raw masked value. -/
theorem C9_flag_tests (b : Nat) (rest : List Int) (hb : b < 256) :
    ∃ e, yp_encoding_iso_8859_3_table[b]? = some e ∧
      yp_encoding_iso_8859_3_alpha_char ((b : Int) :: rest)
        = some (if e.testBit 0 then 1 else 0) ∧
      yp_encoding_iso_8859_3_alnum_char ((b : Int) :: rest)
        = some (if e.testBit 1 then 1 else 0) ∧
      (yp_encoding_iso_8859_3_alpha_char ((b : Int) :: rest) = some 0 ∨
       yp_encoding_iso_8859_3_alpha_char ((b : Int) :: rest) = some 1) ∧
      (yp_encoding_iso_8859_3_alnum_char ((b : Int) :: rest) = some 0 ∨
       yp_encoding_iso_8859_3_alnum_char ((b : Int) :: rest) = some 1) := by
  obtain ⟨e, he, ha, hn⟩ := flag_tests_bytes b hb
  simp only [alnum_char_cons, alpha_char_cons]
  refine ⟨e, he, ha, hn, ?_, ?_⟩
  · rw [ha]
    cases e.testBit 0
    · exact Or.inl rfl
    · exact Or.inr rfl
  · rw [hn]
    cases e.testBit 1
    · exact Or.inl rfl
    · exact Or.inr rfl

/-- Witness of C9 at the digit 0 (byte 0x30), whose entry 2 has the ALPHANUMERIC
bit only: the masked value is 2 and alnum_char returns 1. -/
theorem C9_flag_tests_witness :
    (0x30 : Nat) < 256 ∧
    ∃ e, yp_encoding_iso_8859_3_table[(0x30 : Nat)]? = some e ∧
      yp_encoding_iso_8859_3_alpha_char (((0x30 : Nat) : Int) :: [])
        = some (if e.testBit 0 then 1 else 0) ∧
      yp_encoding_iso_8859_3_alnum_char (((0x30 : Nat) : Int) :: [])
        = some (if e.testBit 1 then 1 else 0) ∧
      (yp_encoding_iso_8859_3_alpha_char (((0x30 : Nat) : Int) :: []) = some 0 ∨
       yp_encoding_iso_8859_3_alpha_char (((0x30 : Nat) : Int) :: []) = some 1) ∧
      (yp_encoding_iso_8859_3_alnum_char (((0x30 : Nat) : Int) :: []) = some 0 ∨
       yp_encoding_iso_8859_3_alnum_char (((0x30 : Nat) : Int) :: []) = some 1) :=
  ⟨by decide, C9_flag_tests 0x30 [] (by decide)⟩

/-- C10: for every byte b in 0..255, alnum_char returns 1 if and only if
alpha_char returns 1 or b is an ASCII digit (0x30 <= b <= 0x39); equivalently,
b is alphanumeric but not alphabetic exactly when it is one of the ten ASCII
digits. -/
theorem C10_alnum_is_alpha_or_digit (b : Nat) (rest : List Int) (hb : b < 256) :
    (yp_encoding_iso_8859_3_alnum_char ((b : Int) :: rest) = some 1 ↔
      (yp_encoding_iso_8859_3_alpha_char ((b : Int) :: rest) = some 1 ∨
       (0x30 ≤ b ∧ b ≤ 0x39))) ∧
    ((yp_encoding_iso_8859_3_alnum_char ((b : Int) :: rest) = some 1 ∧
      yp_encoding_iso_8859_3_alpha_char ((b : Int) :: rest) ≠ some 1) ↔
      (0x30 ≤ b ∧ b ≤ 0x39)) := by
  simp only [alnum_char_cons, alpha_char_cons]
  exact alnum_iff_bytes b hb

/-- Witness of C10 at the digit 9 (byte 0x39). -/
theorem C10_alnum_is_alpha_or_digit_witness :
    (0x39 : Nat) < 256 ∧
    (yp_encoding_iso_8859_3_alnum_char (((0x39 : Nat) : Int) :: []) = some 1 ↔
      (yp_encoding_iso_8859_3_alpha_char (((0x39 : Nat) : Int) :: []) = some 1 ∨
       (0x30 ≤ (0x39 : Nat) ∧ (0x39 : Nat) ≤ 0x39))) ∧
    ((yp_encoding_iso_8859_3_alnum_char (((0x39 : Nat) : Int) :: []) = some 1 ∧
      yp_encoding_iso_8859_3_alpha_char (((0x39 : Nat) : Int) :: []) ≠ some 1) ↔
      (0x30 ≤ (0x39 : Nat) ∧ (0x39 : Nat) ≤ 0x39)) :=
  ⟨by decide, C10_alnum_is_alpha_or_digit 0x39 [] (by decide)⟩

/-! ## The table against the character chart -/

theorem high_half_bytes (b : Nat) (h1 : 0x80 ≤ b) (h2 : b ≤ 0xFF) :
    upperOf (b : Int) = some (decide (chart_high_uppercase b)) ∧
    alphaOf (b : Int)
      = some (if chart_high_uppercase b ∨ chart_high_lowercase b then 1 else 0) ∧
    (¬ (chart_high_uppercase b ∨ chart_high_lowercase b) →
      alphaOf (b : Int) = some 0 ∧ alnumOf (b : Int) = some 0 ∧
      upperOf (b : Int) = some false) ∧
    ((b ≤ 0x9F ∨ b ∈ ([0xA5, 0xAE, 0xBE, 0xC3, 0xD0, 0xE3, 0xF0] : List Nat)) →
      alphaOf (b : Int) = some 0 ∧ alnumOf (b : Int) = some 0 ∧
      upperOf (b : Int) = some false) := by
  have h := forall_byte_of_all
    (fun n => decide (0x80 ≤ n →
      upperOf (n : Int) = some (decide (chart_high_uppercase n)) ∧
      alphaOf (n : Int)
        = some (if chart_high_uppercase n ∨ chart_high_lowercase n then 1 else 0) ∧
      (¬ (chart_high_uppercase n ∨ chart_high_lowercase n) →
        alphaOf (n : Int) = some 0 ∧ alnumOf (n : Int) = some 0 ∧
        upperOf (n : Int) = some false) ∧
      ((n ≤ 0x9F ∨ n ∈ ([0xA5, 0xAE, 0xBE, 0xC3, 0xD0, 0xE3, 0xF0] : List Nat)) →
        alphaOf (n : Int) = some 0 ∧ alnumOf (n : Int) = some 0 ∧
        upperOf (n : Int) = some false)))
    (by decide) b (by omega)
  exact of_decide_eq_true h h1

/-- C11: on the high half the classification equals the ISO-8859-3 chart. For
every byte b in 0x80..0xFF, isupper_char returns true exactly when b is a chart
uppercase position (and false otherwise), alpha_char returns 1 exactly when b is
a chart uppercase or lowercase position (and 0 otherwise), and every other
high-half byte, in particular 0x80..0x9F and the unassigned positions 0xA5,
0xAE, 0xBE, 0xC3, 0xD0, 0xE3 and 0xF0, has all three predicates negative. -/
theorem C11_high_half_chart (b : Nat) (rest : List Int) (h1 : 0x80 ≤ b) (h2 : b ≤ 0xFF) :
    yp_encoding_iso_8859_3_isupper_char ((b : Int) :: rest)
      = some (decide (chart_high_uppercase b)) ∧
    yp_encoding_iso_8859_3_alpha_char ((b : Int) :: rest)
      = some (if chart_high_uppercase b ∨ chart_high_lowercase b then 1 else 0) ∧
    (¬ (chart_high_uppercase b ∨ chart_high_lowercase b) →
      yp_encoding_iso_8859_3_alpha_char ((b : Int) :: rest) = some 0 ∧
      yp_encoding_iso_8859_3_alnum_char ((b : Int) :: rest) = some 0 ∧
      yp_encoding_iso_8859_3_isupper_char ((b : Int) :: rest) = some false) ∧
    ((b ≤ 0x9F ∨ b ∈ ([0xA5, 0xAE, 0xBE, 0xC3, 0xD0, 0xE3, 0xF0] : List Nat)) →
      yp_encoding_iso_8859_3_alpha_char ((b : Int) :: rest) = some 0 ∧
      yp_encoding_iso_8859_3_alnum_char ((b : Int) :: rest) = some 0 ∧
      yp_encoding_iso_8859_3_isupper_char ((b : Int) :: rest) = some false) := by
  simp only [alnum_char_cons, alpha_char_cons, isupper_char_cons]
  exact high_half_bytes b h1 h2

/-- Witness of C11 at the byte 0xA6 (capital H with circumflex), a chart
uppercase position. -/
theorem C11_high_half_chart_witness :
    ((0x80 : Nat) ≤ 0xA6 ∧ (0xA6 : Nat) ≤ 0xFF) ∧
    (yp_encoding_iso_8859_3_isupper_char (((0xA6 : Nat) : Int) :: [])
      = some (decide (chart_high_uppercase 0xA6)) ∧
    yp_encoding_iso_8859_3_alpha_char (((0xA6 : Nat) : Int) :: [])
      = some (if chart_high_uppercase 0xA6 ∨ chart_high_lowercase 0xA6 then 1 else 0) ∧
    (¬ (chart_high_uppercase 0xA6 ∨ chart_high_lowercase 0xA6) →
      yp_encoding_iso_8859_3_alpha_char (((0xA6 : Nat) : Int) :: []) = some 0 ∧
      yp_encoding_iso_8859_3_alnum_char (((0xA6 : Nat) : Int) :: []) = some 0 ∧
      yp_encoding_iso_8859_3_isupper_char (((0xA6 : Nat) : Int) :: []) = some false) ∧
    (((0xA6 : Nat) ≤ 0x9F ∨
        (0xA6 : Nat) ∈ ([0xA5, 0xAE, 0xBE, 0xC3, 0xD0, 0xE3, 0xF0] : List Nat)) →
      yp_encoding_iso_8859_3_alpha_char (((0xA6 : Nat) : Int) :: []) = some 0 ∧
      yp_encoding_iso_8859_3_alnum_char (((0xA6 : Nat) : Int) :: []) = some 0 ∧
      yp_encoding_iso_8859_3_isupper_char (((0xA6 : Nat) : Int) :: []) = some false)) :=
  ⟨by decide, C11_high_half_chart 0xA6 [] (by decide) (by decide)⟩

theorem ascii_half_bytes (b : Nat) (hb : b ≤ 0x7F) :
    upperOf (b : Int) = some (decide (0x41 ≤ b ∧ b ≤ 0x5A)) ∧
    alphaOf (b : Int)
      = some (if (0x41 ≤ b ∧ b ≤ 0x5A) ∨ (0x61 ≤ b ∧ b ≤ 0x7A) then 1 else 0) ∧
    alnumOf (b : Int)
      = some (if (0x30 ≤ b ∧ b ≤ 0x39) ∨ (0x41 ≤ b ∧ b ≤ 0x5A) ∨ (0x61 ≤ b ∧ b ≤ 0x7A)
          then 1 else 0) := by
  have h := forall_byte_of_all
    (fun n => decide (n ≤ 0x7F →
      upperOf (n : Int) = some (decide (0x41 ≤ n ∧ n ≤ 0x5A)) ∧
      alphaOf (n : Int)
        = some (if (0x41 ≤ n ∧ n ≤ 0x5A) ∨ (0x61 ≤ n ∧ n ≤ 0x7A) then 1 else 0) ∧
      alnumOf (n : Int)
        = some (if (0x30 ≤ n ∧ n ≤ 0x39) ∨ (0x41 ≤ n ∧ n ≤ 0x5A) ∨ (0x61 ≤ n ∧ n ≤ 0x7A)
            then 1 else 0)))
    (by decide) b (by omega)
  exact of_decide_eq_true h hb

/-- C12: on the ASCII half the classification is exactly that of ASCII. For every
byte b in 0x00..0x7F, isupper_char returns true iff 0x41 <= b <= 0x5A (false
otherwise), alpha_char returns 1 iff b is in 0x41..0x5A or 0x61..0x7A (0
otherwise), alnum_char returns 1 iff b is in 0x30..0x39, 0x41..0x5A or
0x61..0x7A (0 otherwise); in particular every byte outside these three ranges
(control characters, space, punctuation and the underscore 0x5F) has all three
predicates negative. -/
theorem C12_ascii_half (b : Nat) (rest : List Int) (hb : b ≤ 0x7F) :
    yp_encoding_iso_8859_3_isupper_char ((b : Int) :: rest)
      = some (decide (0x41 ≤ b ∧ b ≤ 0x5A)) ∧
    yp_encoding_iso_8859_3_alpha_char ((b : Int) :: rest)
      = some (if (0x41 ≤ b ∧ b ≤ 0x5A) ∨ (0x61 ≤ b ∧ b ≤ 0x7A) then 1 else 0) ∧
    yp_encoding_iso_8859_3_alnum_char ((b : Int) :: rest)
      = some (if (0x30 ≤ b ∧ b ≤ 0x39) ∨ (0x41 ≤ b ∧ b ≤ 0x5A) ∨ (0x61 ≤ b ∧ b ≤ 0x7A)
          then 1 else 0) ∧
    ((b < 0x30 ∨ (0x3A ≤ b ∧ b ≤ 0x40) ∨ (0x5B ≤ b ∧ b ≤ 0x60) ∨ 0x7B ≤ b) →
      yp_encoding_iso_8859_3_alpha_char ((b : Int) :: rest) = some 0 ∧
      yp_encoding_iso_8859_3_alnum_char ((b : Int) :: rest) = some 0 ∧
      yp_encoding_iso_8859_3_isupper_char ((b : Int) :: rest) = some false) := by
  simp only [alnum_char_cons, alpha_char_cons, isupper_char_cons]
  obtain ⟨hu, ha, hn⟩ := ascii_half_bytes b hb
  refine ⟨hu, ha, hn, ?_⟩
  intro hout
  have h1 : ¬ (0x41 ≤ b ∧ b ≤ 0x5A) := by omega
  have h2 : ¬ ((0x41 ≤ b ∧ b ≤ 0x5A) ∨ (0x61 ≤ b ∧ b ≤ 0x7A)) := by omega
  have h3 : ¬ ((0x30 ≤ b ∧ b ≤ 0x39) ∨ (0x41 ≤ b ∧ b ≤ 0x5A) ∨ (0x61 ≤ b ∧ b ≤ 0x7A)) := by
    omega
  rw [ha, hn, hu, if_neg h2, if_neg h3, decide_eq_false h1]
  exact ⟨rfl, rfl, rfl⟩

/-- Witness of C12 at the underscore (byte 0x5F), which lies outside the three
ranges. -/
theorem C12_ascii_half_witness :
    (0x5F : Nat) ≤ 0x7F ∧
    (yp_encoding_iso_8859_3_isupper_char (((0x5F : Nat) : Int) :: [])
      = some (decide (0x41 ≤ (0x5F : Nat) ∧ (0x5F : Nat) ≤ 0x5A)) ∧
    yp_encoding_iso_8859_3_alpha_char (((0x5F : Nat) : Int) :: [])
      = some (if (0x41 ≤ (0x5F : Nat) ∧ (0x5F : Nat) ≤ 0x5A) ∨
                 (0x61 ≤ (0x5F : Nat) ∧ (0x5F : Nat) ≤ 0x7A) then 1 else 0) ∧
    yp_encoding_iso_8859_3_alnum_char (((0x5F : Nat) : Int) :: [])
      = some (if (0x30 ≤ (0x5F : Nat) ∧ (0x5F : Nat) ≤ 0x39) ∨
                 (0x41 ≤ (0x5F : Nat) ∧ (0x5F : Nat) ≤ 0x5A) ∨
                 (0x61 ≤ (0x5F : Nat) ∧ (0x5F : Nat) ≤ 0x7A) then 1 else 0) ∧
    (((0x5F : Nat) < 0x30 ∨ (0x3A ≤ (0x5F : Nat) ∧ (0x5F : Nat) ≤ 0x40) ∨
        (0x5B ≤ (0x5F : Nat) ∧ (0x5F : Nat) ≤ 0x60) ∨ 0x7B ≤ (0x5F : Nat)) →
      yp_encoding_iso_8859_3_alpha_char (((0x5F : Nat) : Int) :: []) = some 0 ∧
      yp_encoding_iso_8859_3_alnum_char (((0x5F : Nat) : Int) :: []) = some 0 ∧
      yp_encoding_iso_8859_3_isupper_char (((0x5F : Nat) : Int) :: []) = some false)) :=
  ⟨by decide, C12_ascii_half 0x5F [] (by decide)⟩

/-! ## Shape of the entries -/

theorem entry_values_bytes (b : Nat) (hb : b < 256) :
    ∃ e ∈ yp_encoding_iso_8859_3_table[b]?,
      e &&& 0xF8 = 0 ∧ (e = 0 ∨ e = 2 ∨ e = 3 ∨ e = 7) := by
  have h := forall_byte_of_all
    (fun n => decide (∃ e ∈ yp_encoding_iso_8859_3_table[n]?,
      e &&& 0xF8 = 0 ∧ (e = 0 ∨ e = 2 ∨ e = 3 ∨ e = 7)))
    (by decide) b hb
  exact of_decide_eq_true h

/-- C13: the table has 256 entries and each of them uses only the three flag bits
(no bit outside 0x07 is set) and is one of the four values 0, 2, 3 or 7; the
combinations 1, 4, 5 and 6 never occur. -/
theorem C13_entry_values (b : Nat) (hb : b < 256) :
    yp_encoding_iso_8859_3_table.length = 256 ∧
    ∃ e, yp_encoding_iso_8859_3_table[b]? = some e ∧
      e &&& 0xF8 = 0 ∧ e &&& 0x07 = e ∧
      (e = 0 ∨ e = 2 ∨ e = 3 ∨ e = 7) ∧
      e ≠ 1 ∧ e ≠ 4 ∧ e ≠ 5 ∧ e ≠ 6 := by
  obtain ⟨e, he, hbits, hv⟩ := entry_values_bytes b hb
  refine ⟨table_length, e, he, hbits, ?_, hv, ?_, ?_, ?_, ?_⟩
  · rcases hv with h | h | h | h <;> subst h <;> rfl
  all_goals omega

/-- Witness of C13 at the byte 0x41, whose entry is 7. -/
theorem C13_entry_values_witness :
    (0x41 : Nat) < 256 ∧
    (yp_encoding_iso_8859_3_table.length = 256 ∧
    ∃ e, yp_encoding_iso_8859_3_table[(0x41 : Nat)]? = some e ∧
      e &&& 0xF8 = 0 ∧ e &&& 0x07 = e ∧
      (e = 0 ∨ e = 2 ∨ e = 3 ∨ e = 7) ∧
      e ≠ 1 ∧ e ≠ 4 ∧ e ≠ 5 ∧ e ≠ 6) :=
  ⟨by decide, C13_entry_values 0x41 (by decide)⟩

/-! ## Uppercase bytes and their lowercase partners -/

/-- The uppercase bytes lie in three blocks. -/
theorem upper_blocks_bytes (b : Nat) (hb : b < 256)
    (hu : upperOf (b : Int) = some true) :
    (0x41 ≤ b ∧ b ≤ 0x5A) ∨ (0xA1 ≤ b ∧ b ≤ 0xAF) ∨ (0xC0 ≤ b ∧ b ≤ 0xDE) := by
  have h := forall_byte_of_all
    (fun n => decide (upperOf (n : Int) = some true →
      (0x41 ≤ n ∧ n ≤ 0x5A) ∨ (0xA1 ≤ n ∧ n ≤ 0xAF) ∨ (0xC0 ≤ n ∧ n ≤ 0xDE)))
    (by decide) b hb
  exact of_decide_eq_true h hu

/-- The byte at the fixed offset above an uppercase byte is a letter that is not
uppercase. -/
theorem partner_bytes (b : Nat) (hb : b < 256)
    (hu : upperOf (b : Int) = some true) :
    alphaOf (((if 0xA0 ≤ b ∧ b ≤ 0xAF then b + 0x10 else b + 0x20 : Nat)) : Int) = some 1 ∧
    upperOf (((if 0xA0 ≤ b ∧ b ≤ 0xAF then b + 0x10 else b + 0x20 : Nat)) : Int)
      = some false := by
  have h := forall_byte_of_all
    (fun n => decide (upperOf (n : Int) = some true →
      alphaOf (((if 0xA0 ≤ n ∧ n ≤ 0xAF then n + 0x10 else n + 0x20 : Nat)) : Int)
        = some 1 ∧
      upperOf (((if 0xA0 ≤ n ∧ n ≤ 0xAF then n + 0x10 else n + 0x20 : Nat)) : Int)
        = some false))
    (by decide) b hb
  exact of_decide_eq_true h hu

/-- C14: every uppercase byte has a lowercase partner at the fixed offset. For
bytes b and b2 on which isupper_char returns true, with l = b + 0x10 when
0xA0 <= b <= 0xAF and l = b + 0x20 otherwise (and l2 likewise from b2): l <= 0xFF,
alpha_char returns 1 on l, isupper_char returns false on l, and l = l2 only if
b = b2 (the map is injective on the uppercase bytes). -/
theorem C14_lowercase_partner (b b2 l l2 : Nat) (rest : List Int)
    (hb : b < 256) (hb2 : b2 < 256)
    (hu : yp_encoding_iso_8859_3_isupper_char ((b : Int) :: rest) = some true)
    (hu2 : yp_encoding_iso_8859_3_isupper_char ((b2 : Int) :: rest) = some true)
    (hl : l = if 0xA0 ≤ b ∧ b ≤ 0xAF then b + 0x10 else b + 0x20)
    (hl2 : l2 = if 0xA0 ≤ b2 ∧ b2 ≤ 0xAF then b2 + 0x10 else b2 + 0x20) :
    l ≤ 0xFF ∧
    yp_encoding_iso_8859_3_alpha_char ((l : Int) :: rest) = some 1 ∧
    yp_encoding_iso_8859_3_isupper_char ((l : Int) :: rest) = some false ∧
    (l = l2 → b = b2) := by
  simp only [alpha_char_cons, isupper_char_cons] at hu hu2 ⊢
  have hr := upper_blocks_bytes b hb hu
  have hr2 := upper_blocks_bytes b2 hb2 hu2
  obtain ⟨ha, hn⟩ := partner_bytes b hb hu
  rw [← hl] at ha hn
  refine ⟨?_, ha, hn, ?_⟩
  · rw [hl]
    split_ifs <;> omega
  · intro heq
    rw [hl, hl2] at heq
    split_ifs at heq <;> omega

/-- Witness of C14 at the uppercase bytes 0xA1 (capital H with stroke, partner
0xB1) and 0x41 (capital A, partner 0x61). -/
theorem C14_lowercase_partner_witness :
    ((0xA1 : Nat) < 256 ∧ (0x41 : Nat) < 256 ∧
      yp_encoding_iso_8859_3_isupper_char (((0xA1 : Nat) : Int) :: []) = some true ∧
      yp_encoding_iso_8859_3_isupper_char (((0x41 : Nat) : Int) :: []) = some true ∧
      (0xB1 : Nat) = (if 0xA0 ≤ (0xA1 : Nat) ∧ (0xA1 : Nat) ≤ 0xAF
        then 0xA1 + 0x10 else 0xA1 + 0x20) ∧
      (0x61 : Nat) = (if 0xA0 ≤ (0x41 : Nat) ∧ (0x41 : Nat) ≤ 0xAF
        then 0x41 + 0x10 else 0x41 + 0x20)) ∧
    ((0xB1 : Nat) ≤ 0xFF ∧
      yp_encoding_iso_8859_3_alpha_char (((0xB1 : Nat) : Int) :: []) = some 1 ∧
      yp_encoding_iso_8859_3_isupper_char (((0xB1 : Nat) : Int) :: []) = some false ∧
      ((0xB1 : Nat) = 0x61 → (0xA1 : Nat) = 0x41)) :=
  ⟨by decide,
   C14_lowercase_partner 0xA1 0x41 0xB1 0x61 [] (by decide) (by decide) (by decide)
     (by decide) (by decide) (by decide)⟩

/-- Every letter that is not uppercase, 0xB5 and 0xDF apart, sits at the fixed
offset above an uppercase byte. -/
theorem lower_has_partner_bytes (l : Nat) (hl : l < 256)
    (ha : alphaOf (l : Int) = some 1) (hn : upperOf (l : Int) = some false)
    (h1 : l ≠ 0xB5) (h2 : l ≠ 0xDF) :
    upperOf (((if 0xB0 ≤ l ∧ l ≤ 0xBF then l - 0x10 else l - 0x20 : Nat)) : Int)
      = some true ∧
    (0x20 ≤ l ∧ (0xB0 ≤ l → l ≤ 0xBF ∨ 0xE0 ≤ l)) := by
  have h := forall_byte_of_all
    (fun n => decide (alphaOf (n : Int) = some 1 → upperOf (n : Int) = some false →
      n ≠ 0xB5 → n ≠ 0xDF →
      upperOf (((if 0xB0 ≤ n ∧ n ≤ 0xBF then n - 0x10 else n - 0x20 : Nat)) : Int)
        = some true ∧
      (0x20 ≤ n ∧ (0xB0 ≤ n → n ≤ 0xBF ∨ 0xE0 ≤ n))))
    (by decide) l hl
  exact of_decide_eq_true h ha hn h1 h2

/-- No uppercase byte has 0xB5 or 0xDF at its fixed offset. -/
theorem partner_misses_bytes (b : Nat) (hb : b < 256)
    (hu : upperOf (b : Int) = some true) :
    (if 0xA0 ≤ b ∧ b ≤ 0xAF then b + 0x10 else b + 0x20) ≠ 0xB5 ∧
    (if 0xA0 ≤ b ∧ b ≤ 0xAF then b + 0x10 else b + 0x20) ≠ 0xDF := by
  have h := forall_byte_of_all
    (fun n => decide (upperOf (n : Int) = some true →
      (if 0xA0 ≤ n ∧ n ≤ 0xAF then n + 0x10 else n + 0x20) ≠ 0xB5 ∧
      (if 0xA0 ≤ n ∧ n ≤ 0xAF then n + 0x10 else n + 0x20) ≠ 0xDF))
    (by decide) b hb
  exact of_decide_eq_true h hu

theorem count_upper_bytes :
    (List.range 256).countP (fun b => decide (upperOf (b : Int) = some true)) = 61 := by
  decide

theorem count_lower_bytes :
    (List.range 256).countP
      (fun b => decide (alphaOf (b : Int) = some 1 ∧ upperOf (b : Int) = some false))
      = 63 := by
  decide

/-- C15: a byte l in 0..255 is alphabetic, not uppercase and not the lowercase
partner (b + 0x10 for b in 0xA0..0xAF, b + 0x20 otherwise) of any uppercase byte
b exactly when l is 0xB5 (micro sign) or 0xDF (sharp s); and among the bytes
0..255 there are 61 uppercase ones and 63 alphabetic non-uppercase ones. -/
theorem C15_unpaired_lowercase (l : Nat) (rest : List Int) (hl : l < 256) :
    ((yp_encoding_iso_8859_3_alpha_char ((l : Int) :: rest) = some 1 ∧
      yp_encoding_iso_8859_3_isupper_char ((l : Int) :: rest) = some false ∧
      ∀ b : Nat, b < 256 →
        yp_encoding_iso_8859_3_isupper_char ((b : Int) :: rest) = some true →
        (if 0xA0 ≤ b ∧ b ≤ 0xAF then b + 0x10 else b + 0x20) ≠ l)
      ↔ (l = 0xB5 ∨ l = 0xDF)) ∧
    (List.range 256).countP
      (fun b => decide (yp_encoding_iso_8859_3_isupper_char ((b : Int) :: rest) = some true))
      = 61 ∧
    (List.range 256).countP
      (fun b => decide (yp_encoding_iso_8859_3_alpha_char ((b : Int) :: rest) = some 1 ∧
        yp_encoding_iso_8859_3_isupper_char ((b : Int) :: rest) = some false))
      = 63 := by
  simp only [alpha_char_cons, isupper_char_cons]
  refine ⟨⟨?_, ?_⟩, count_upper_bytes, count_lower_bytes⟩
  · rintro ⟨ha, hn, hno⟩
    by_contra hne
    have h1 : l ≠ 0xB5 := fun h => hne (Or.inl h)
    have h2 : l ≠ 0xDF := fun h => hne (Or.inr h)
    obtain ⟨hu, hlo, hgap⟩ := lower_has_partner_bytes l hl ha hn h1 h2
    refine hno (if 0xB0 ≤ l ∧ l ≤ 0xBF then l - 0x10 else l - 0x20) ?_ hu ?_
    · split_ifs <;> omega
    · split_ifs <;> omega
  · intro hl2
    refine ⟨?_, ?_, ?_⟩
    · rcases hl2 with h | h <;> subst h <;> decide
    · rcases hl2 with h | h <;> subst h <;> decide
    · intro b hb hu
      have hm := partner_misses_bytes b hb hu
      rcases hl2 with h | h
      · rw [h]; exact hm.1
      · rw [h]; exact hm.2

/-- Witness of C15 at the byte 0xB5 (micro sign). -/
theorem C15_unpaired_lowercase_witness :
    (0xB5 : Nat) < 256 ∧
    (((yp_encoding_iso_8859_3_alpha_char (((0xB5 : Nat) : Int) :: []) = some 1 ∧
      yp_encoding_iso_8859_3_isupper_char (((0xB5 : Nat) : Int) :: []) = some false ∧
      ∀ b : Nat, b < 256 →
        yp_encoding_iso_8859_3_isupper_char ((b : Int) :: []) = some true →
        (if 0xA0 ≤ b ∧ b ≤ 0xAF then b + 0x10 else b + 0x20) ≠ 0xB5)
      ↔ ((0xB5 : Nat) = 0xB5 ∨ (0xB5 : Nat) = 0xDF)) ∧
    (List.range 256).countP
      (fun b => decide (yp_encoding_iso_8859_3_isupper_char ((b : Int) :: []) = some true))
      = 61 ∧
    (List.range 256).countP
      (fun b => decide (yp_encoding_iso_8859_3_alpha_char ((b : Int) :: []) = some 1 ∧
        yp_encoding_iso_8859_3_isupper_char ((b : Int) :: []) = some false))
      = 63) :=
  ⟨by decide, C15_unpaired_lowercase 0xB5 [] (by decide)⟩

end Yarp
